import Mathlib

/-!
# dnsclient: a verification development

Shallow embedding of the DNS client of `Arritmic/dnsclient`:

* `main.cpp`: `to_rr_type`, `to_string`, `rcode_to_string`, the stream
  operators for resource records, `process_args`, `parse_line`, `exec_query`
  and the request loop of `main`;
* `MXResourceRecord.cc`: the constructor of `MXResourceRecord`.

Classes whose sources are not part of the development (`DomainName`,
`ResourceRecord`, `AResourceRecord`, `NSResourceRecord`, `Message`) are modelled
from the specification; each such definition says so in its doc comment.
-/

namespace ro1617

/-! ## Basic data -/

/-- One octet, as stored in a `uint8_t`. -/
abbrev Byte := Fin 256

/-- Flat byte-addressed memory; a `const uint8_t *` is an address. -/
abbrev Memory := Nat → Byte

/-- Modelled from the spec: the enumeration `RRType` (its declaration is not among the
sources). The spec gives a closed enumeration of Address, NameServer and MailExchange. -/
inductive RRType
  | A
  | NS
  | MX
  deriving DecidableEq, Repr

/-- The enumeration `TransportType` of `main.cpp`. -/
inductive TransportType
  | TCP
  | UDP
  deriving DecidableEq, Repr

/-- The function `to_string(TransportType)`. The final `throw` of the source is reached
only for a value outside the enumeration, which the type excludes. -/
def TransportType.to_string : TransportType → String
  | .TCP => "TCP"
  | .UDP => "UDP"

/-- The function `to_rr_type`: the exception carries the message of the `runtime_error`. -/
def to_rr_type (str : String) : Except String RRType :=
  if str = "A" then .ok .A
  else if str = "MX" then .ok .MX
  else if str = "NS" then .ok .NS
  else .error ("Unknown RR type \x27" ++ str ++ "\x27")

/-- The function `to_string(RRType)`. The `default:` branch of the source is reached only
for a value outside the enumeration, which the type excludes. -/
def RRType.to_string : RRType → String
  | .A => "A"
  | .MX => "MX"
  | .NS => "NS"

/-- The function `rcode_to_string`; `return {}` is the empty string. -/
def rcode_to_string (rcode : Nat) : String :=
  if rcode = 0 then "No error"
  else if rcode = 1 then "Format error"
  else if rcode = 2 then "Server failure"
  else if rcode = 3 then "Name Error"
  else if rcode = 4 then "Not Implemented"
  else if rcode = 5 then "Refused"
  else ""

/-! ## Request lines -/

/-- The whitespace test used by formatted extraction (`std::isspace`, classic locale). -/
def isspace (c : Char) : Bool :=
  c = ' ' || c = '\t' || c = '\n' || c = '\x0b' || c = '\x0c' || c = '\r'

/-- Reading every `std::string` off an `istringstream` with `istream_iterator`: leading
whitespace is skipped, then characters are taken up to the next whitespace or the end.
`cur` is the token being read, most recent character first. -/
def tokensAux : List Char → List Char → List String
  | [], cur => if cur.isEmpty then [] else [String.mk cur.reverse]
  | c :: cs, cur =>
    if isspace c then
      (if cur.isEmpty then tokensAux cs [] else String.mk cur.reverse :: tokensAux cs [])
    else tokensAux cs (c :: cur)

/-- The vector `tokens` built in `parse_line`. -/
def tokens (line : String) : List String := tokensAux line.data []

/-- The structure `UserRequest`. -/
structure UserRequest where
  rr_type : RRType
  name : String
  deriving DecidableEq, Repr

/-- The function `parse_line`: the returned pair is the `bool` result and the value of the
reference parameter `user_request` on return. -/
def parse_line (line : String) (user_request : UserRequest) : Bool × UserRequest :=
  match tokens line with
  | [t0, t1] =>
    match to_rr_type t0 with
    | .ok rr => (true, { rr_type := rr, name := t1 })
    | .error _ => (false, user_request)
  | _ => (false, user_request)


/-- Every character of `w` is whitespace. -/
def AllSpace (w : List Char) : Prop := ∀ c ∈ w, isspace c = true

/-- No character of `t` is whitespace. -/
def NoSpace (t : List Char) : Prop := ∀ c ∈ t, isspace c = false

/-- What follows a token: the end of the line, or a whitespace character and the rest. -/
def Rest (r : List Char) (rest : List String) : Prop :=
  (r = [] ∧ rest = []) ∨ ∃ c r2, r = c :: r2 ∧ isspace c = true ∧ tokensAux r2 [] = rest

/-- The line is two whitespace-free, non-empty words `t0` and `t1`, separated by at least one
whitespace character and surrounded by any amount of whitespace. -/
def SplitsInTwo (line : List Char) (t0 t1 : List Char) : Prop :=
  ∃ w0 w1 w2, line = w0 ++ t0 ++ w1 ++ t1 ++ w2 ∧ AllSpace w0 ∧ AllSpace w1 ∧ w1 ≠ [] ∧
    AllSpace w2 ∧ t0 ≠ [] ∧ NoSpace t0 ∧ t1 ≠ [] ∧ NoSpace t1

/-! ## Resource records -/

/-- Modelled from the spec: the class `DomainName` (its source is not part of the
development): an ordered sequence of labels, each a byte string. -/
structure DomainName where
  labels : List (List Byte)
  deriving DecidableEq, Repr

/-- Modelled from the spec: `toString(DomainName)`, the display string of a name
(its source is not part of the development): the labels joined by dots. -/
def DomainName.toString (d : DomainName) : String :=
  String.intercalate "." (d.labels.map (fun l => String.mk (l.map (fun b => Char.ofNat b.val))))

/-- The type `struct in_addr` holding an IPv4 address: its four octets in memory order
(network byte order). -/
structure in_addr where
  b0 : Byte
  b1 : Byte
  b2 : Byte
  b3 : Byte
  deriving DecidableEq, Repr

/-- The call `inet_ntop(AF_INET, ...)` used by `operator<<` for `in_addr`: dotted decimal. -/
def inet_ntop (addr : in_addr) : String :=
  toString addr.b0.val ++ "." ++ toString addr.b1.val ++ "." ++ toString addr.b2.val ++ "." ++
    toString addr.b3.val

/-- Modelled from the spec: the common part of the class `ResourceRecord` (its source is
not part of the development). `owner` is the `domain` argument of the constructors, the
name the record belongs to. -/
structure ResourceRecordBase where
  owner : DomainName
  rrtype : RRType
  ttl : Nat
  rdlength : Nat
  deriving DecidableEq, Repr

/-- Modelled from the spec: the class `AResourceRecord` (its source is not part of the
development); `address` is what `getAddress()` returns. -/
structure AResourceRecord extends ResourceRecordBase where
  address : in_addr
  deriving DecidableEq, Repr

/-- Modelled from the spec: the class `NSResourceRecord` (its source is not part of the
development); `domain` is what `domain()` returns, the name decoded from the rdata. -/
structure NSResourceRecord extends ResourceRecordBase where
  domain : DomainName
  deriving DecidableEq, Repr

/-- The class `MXResourceRecord` of `MXResourceRecord.h`: an `NSResourceRecord` with the
16-bit member `preference_`. -/
structure MXResourceRecord extends NSResourceRecord where
  preference_ : Nat
  deriving DecidableEq, Repr

/-- An object seen through a `const ResourceRecord &`: its dynamic type is one of the three
record classes, or some other class derived from `ResourceRecord`. -/
inductive ResourceRecord
  | a (r : AResourceRecord)
  | ns (r : NSResourceRecord)
  | mx (r : MXResourceRecord)
  | other (r : ResourceRecordBase)
  deriving DecidableEq, Repr

/-- The cast `dynamic_cast<const AResourceRecord *>(&rr)`. -/
def ResourceRecord.asA : ResourceRecord → Option AResourceRecord
  | .a r => some r
  | _ => none

/-- The cast `dynamic_cast<const NSResourceRecord *>(&rr)`: it also succeeds on an
`MXResourceRecord`, which derives from `NSResourceRecord`. -/
def ResourceRecord.asNS : ResourceRecord → Option NSResourceRecord
  | .ns r => some r
  | .mx r => some r.toNSResourceRecord
  | _ => none

/-- The operator `operator<<(std::ostream &, const AResourceRecord &)`: the text written. -/
def AResourceRecord.operator_out (a_rr : AResourceRecord) : String :=
  a_rr.rrtype.to_string ++ " " ++ toString a_rr.ttl ++ " " ++ inet_ntop a_rr.address

/-- The operator `operator<<(std::ostream &, const NSResourceRecord &)`: the text written. -/
def NSResourceRecord.operator_out (ns_rr : NSResourceRecord) : String :=
  ns_rr.rrtype.to_string ++ " " ++ toString ns_rr.ttl ++ " " ++ ns_rr.domain.toString

/-- The operator `operator<<(std::ostream &, const ResourceRecord &)`: the text written, or
the message of the `runtime_error` thrown. The branch for `MXResourceRecord` is compiled
out (`#if 0`) in the source. -/
def ResourceRecord.operator_out (rr : ResourceRecord) : Except String String :=
  match rr.asA with
  | some a_rr => .ok a_rr.operator_out
  | none =>
    match rr.asNS with
    | some ns_rr => .ok ns_rr.operator_out
    | none => .error "Unknown record type"

/-! ## The command-line client -/

/-- The global variables `g_dns_servers` and `g_transport_type`. -/
structure Globals where
  g_dns_servers : List String
  g_transport_type : TransportType
  deriving DecidableEq, Repr

/-- The globals at program start: an empty vector and a zero-initialised enumeration,
whose value 0 is `TCP`. -/
def initialGlobals : Globals := { g_dns_servers := [], g_transport_type := .TCP }

/-- What the program writes, one constructor per output statement of `main.cpp`. -/
inductive Event
  | banner
  | errWrongArgs
  | errInvalidServer
  | infoDefaultTransport (tt : TransportType)
  | warnTransportIgnored (tt : TransportType)
  | errUnknownTransport (transport_arg : String)
  | warnMalformed (line_n : Nat) (line : String)
  | question (tt : TransportType) (server : String) (rr_type : RRType) (name : String)
  | errSendto (strerror : String)
  | errRecv (strerror : String)
  | errBrokenAns (what : String)
  | infoNoAnswer
  | errRcode (text : String)
  | answer (server : String) (rr : String)
  | answerThrew (server : String) (what : String)
  deriving DecidableEq, Repr

/-- The text of each output statement. -/
def Event.render : Event → String
  | .banner => "DNS Client [RO16_17].... \n"
  | .errWrongArgs => "ERR: wrong cmd line arguments\n"
  | .errInvalidServer => "ERR: invalid NS server IP address\n"
  | .infoDefaultTransport tt =>
    "INFO: no transport chosen. Using " ++ tt.to_string ++ " as default\n"
  | .warnTransportIgnored tt =>
    "WARN: transport chosen but ignored (not impl.). Using " ++ tt.to_string ++ " as default\n"
  | .errUnknownTransport transport_arg =>
    "ERR: unknown transport type \x27" ++ transport_arg ++ "\x27\n"
  | .warnMalformed line_n line =>
    "WARN: ignoring malformed line " ++ toString line_n ++ ": \x27" ++ line ++ "\x27\n"
  | .question tt server rr_type name =>
    "Q: " ++ tt.to_string ++ " " ++ server ++ " " ++ rr_type.to_string ++ " " ++ name ++ "\n"
  | .errSendto strerror => "ERR: sendto failed: " ++ strerror ++ "\n"
  | .errRecv strerror => "ERR: recv failed: " ++ strerror ++ "\n"
  | .errBrokenAns what => "ERR: broken ans: " ++ what ++ "\n"
  | .infoNoAnswer => "INFO: could not get answer for query. Skipping (I\x27m not retrying)\n"
  | .errRcode text => "ERR: answer has error condition \x27" ++ text ++ "\x27\n"
  | .answer server rr => "A: " ++ server ++ " " ++ rr ++ "\n"
  | .answerThrew server _ => "A: " ++ server ++ " "

/-- The function `process_args`. `argv` holds the `argc` arguments, program name first;
`inet_pton` is the library call `inet_pton(AF_INET, ., &ip_addr)` with its `int` result.
The result is the `bool` returned, the globals on return and the output written. -/
def process_args (inet_pton : String → Int) (argv : List String) (g : Globals) :
    Bool × Globals × List Event :=
  let argc := argv.length
  let g1 : Globals := { g with g_transport_type := .UDP }
  if argc > 3 ∨ argc < 2 then (false, g1, [.errWrongArgs])
  else
    let g2 : Globals := { g1 with g_dns_servers := g1.g_dns_servers ++ [argv.getD (argc - 1) ""] }
    if inet_pton (g2.g_dns_servers.headD "") = 0 then (false, g2, [.errInvalidServer])
    else
      let argc := argc - 1
      if argc < 2 then (true, g2, [.infoDefaultTransport g2.g_transport_type])
      else
        let transport_arg := argv.getD 1 ""
        if transport_arg = "-t" ∨ transport_arg = "-u" then
          (true, g2, [.warnTransportIgnored g2.g_transport_type])
        else (false, g2, [.errUnknownTransport transport_arg])

/-- Modelled from the spec: the class `Message` (its source is not part of the
development), reduced to what `main` reads from an answer: `rcode()` and `getAnswers()`. -/
structure Message where
  rcode : Nat
  answers : List ResourceRecord
  deriving DecidableEq, Repr

/-- A default-constructed `Message`. -/
def Message.empty : Message := { rcode := 0, answers := [] }

/-- Everything outside the program that decides how one query goes: whether building the
question throws, `query_msg.qdcount()`, whether `socket` succeeds, whether the two
assertions on the encoded query hold, the outcomes of `sendto` and `recvfrom` (with the
`strerror` text on failure), and what `makeMessage` makes of the bytes received (a message,
or the `what()` of the exception it throws). -/
structure QueryEnv where
  questionOk : Bool
  qdcount : Nat
  socketOk : Bool
  encodeOk : Bool
  sendto : Except String Unit
  recvfrom : Except String Unit
  makeMessage : Except String Message

/-- How a call of `exec_query` ends: by an exception or failed assertion, or by returning. -/
inductive ExecResult
  | threw (out : List Event)
  | returned (ok : Bool) (ans : Message) (out : List Event)

/-- The function `exec_query`; `ans` is the reference parameter, assigned only on success. -/
def exec_query (env : QueryEnv) (ans : Message) : ExecResult :=
  if env.qdcount = 0 then .threw []
  else if !env.socketOk then .threw []
  else if !env.encodeOk then .threw []
  else
    match env.sendto with
    | .error e => .returned false ans [.errSendto e]
    | .ok _ =>
      match env.recvfrom with
      | .error e => .returned false ans [.errRecv e]
      | .ok _ =>
        match env.makeMessage with
        | .error what => .returned false ans [.errBrokenAns what]
        | .ok m => .returned true m []

/-- The loop `for (const auto &rr : ans.getAnswers())` of `main`: one line per record; an
exception from `operator<<` is not caught, so it ends the program (`false`). -/
def print_answers (server : String) : List ResourceRecord → List Event × Bool
  | [] => ([], true)
  | rr :: rest =>
    match rr.operator_out with
    | .error what => ([.answerThrew server what], false)
    | .ok text =>
      let r := print_answers server rest
      (.answer server text :: r.1, r.2)

/-- The statement `line_n++` on an `unsigned int`. -/
def line_n_incr (line_n : Nat) : Nat := (line_n + 1) % 4294967296

/-- One iteration of the `while` loop of `main`, after `std::getline` has read `line`.
The result is the output written and the value of `line_n` at the end of the iteration,
or `none` when an uncaught exception or a failed assertion ends the program. The two
`continue` statements leave the iteration before `line_n++`. -/
def main_body (g : Globals) (line : String) (env : QueryEnv) (line_n : Nat) :
    List Event × Option Nat :=
  let r := parse_line line { rr_type := .A, name := "" }
  let line_ok := r.1
  let user_request := r.2
  if !line_ok then ([.warnMalformed line_n line], some (line_n_incr line_n))
  else if !env.questionOk then ([], none)
  else
    let q := Event.question g.g_transport_type (g.g_dns_servers.headD "")
      user_request.rr_type user_request.name
    match exec_query env Message.empty with
    | .threw out => (q :: out, none)
    | .returned ok ans out =>
      if !ok then (q :: out ++ [.infoNoAnswer], some line_n)
      else if ans.rcode ≠ 0 then
        (q :: out ++ [.errRcode (rcode_to_string ans.rcode)], some line_n)
      else
        let p := print_answers (g.g_dns_servers.headD "") ans.answers
        if p.2 then (q :: out ++ p.1, some (line_n_incr line_n))
        else (q :: out ++ p.1, none)

/-- How the program ends: `return 0`, `return EXIT_FAILURE`, or abnormal termination. -/
inductive Exit
  | success
  | failure
  | terminated
  deriving DecidableEq, Repr

/-- The `while (!requests_stream.eof())` loop of `main`. The input is the sequence of
lines `std::getline` yields, each paired with the environment of the query it may issue. -/
def main_loop (g : Globals) : List (String × QueryEnv) → Nat → List Event × Exit
  | [], _ => ([], .success)
  | (line, env) :: rest, line_n =>
    match main_body g line env line_n with
    | (out, none) => (out, .terminated)
    | (out, some n) =>
      let r := main_loop g rest n
      (out ++ r.1, r.2)

/-- The function `main`. -/
def main (inet_pton : String → Int) (argv : List String) (input : List (String × QueryEnv)) :
    List Event × Exit :=
  match process_args inet_pton argv initialGlobals with
  | (false, _, out) => (.banner :: out, .failure)
  | (true, g, out) =>
    let r := main_loop g input 0
    (.banner :: out ++ r.1, r.2)

/-- An environment in which the query is sent and the server answers with `m`. -/
def QueryEnv.answering (m : Message) : QueryEnv :=
  { questionOk := true, qdcount := 1, socketOk := true, encodeOk := true,
    sendto := .ok (), recvfrom := .ok (), makeMessage := .ok m }

/-- A stand-in for `inet_pton` that accepts exactly the address `127.0.0.53`. -/
def sample_inet_pton (s : String) : Int := if s = "127.0.0.53" then 1 else 0

/-! ## Decoding a mail-exchange record -/

/-- Modelled from the spec: the error kinds of the codec (the exception types thrown by
the record constructors are not part of the development). -/
inductive DecodeError
  | BufferTooShort
  | RdataLengthMismatch
  | UnsupportedRRType
  | InvalidClass
  | LabelTooLong
  | NameTooLong
  | CompressionPointerOutOfRange
  | CompressionLoop
  | SectionCountMismatch
  deriving DecidableEq, Repr

/-- Byte order of the host. -/
inductive Endian
  | little
  | big
  deriving DecidableEq, Repr

/-- The call `memcpy(&preference_, p, 2)`: the value the `uint16_t` holds once its two
bytes are those at `p` and `p + 1`. -/
def memcpy16 (host : Endian) (mem : Memory) (p : Nat) : Nat :=
  match host with
  | .little => (mem p).val + 256 * (mem (p + 1)).val
  | .big => 256 * (mem p).val + (mem (p + 1)).val

/-- The function `ntohs`: the identity on a big-endian host, a byte swap otherwise. -/
def ntohs (host : Endian) (x : Nat) : Nat :=
  match host with
  | .little => ((x % 256) * 256 + (x / 256) % 256) % 65536
  | .big => x % 65536

/-- The argument expression `rdlength-2u`: the subtraction is done in `unsigned int`
(32 bits) and the result converted to the `uint16_t` parameter of the base constructor. -/
def rdlength_minus_2u (rdlength : Nat) : Nat :=
  ((rdlength + 4294967296 - 2) % 4294967296) % 65536

/-- The type of the constructor of `NSResourceRecord` as `MXResourceRecord` calls it:
memory, `domain`, `rdata_cbegin`, `rdata_cend`, `ttl`, `rdlength`, `cache`; it yields the
base object or throws. -/
abbrev NSConstructor :=
  Memory → DomainName → Nat → Nat → Nat → Nat → Nat → Except DecodeError NSResourceRecord

/-- The constructor `MXResourceRecord::MXResourceRecord`. The base-class constructor `ns`
runs first, on `rdata_cbegin+2` and `rdlength-2u`; if it throws, so does this constructor;
otherwise the body copies the two bytes at `rdata_cbegin` and converts them with `ntohs`. -/
def MXResourceRecord.construct (host : Endian) (ns : NSConstructor) (mem : Memory)
    (domain : DomainName) (rdata_cbegin rdata_cend ttl rdlength cache : Nat) :
    Except DecodeError MXResourceRecord :=
  match ns mem domain (rdata_cbegin + 2) rdata_cend ttl (rdlength_minus_2u rdlength) cache with
  | .error e => .error e
  | .ok base =>
    .ok { toNSResourceRecord := base,
          preference_ := ntohs host (memcpy16 host mem rdata_cbegin) }

/-- The mail-exchange decoder in the words of the specification: the rdata begins with a
two-byte preference in network byte order; what follows is decoded by the name-server
path, which is handed the declared length `rdlength` reduced by 2. -/
def MXResourceRecord.decode_spec (ns : NSConstructor) (mem : Memory) (domain : DomainName)
    (rdata_cbegin rdata_cend ttl rdlength cache : Nat) : Except DecodeError MXResourceRecord :=
  match ns mem domain (rdata_cbegin + 2) rdata_cend ttl (rdlength - 2) cache with
  | .error e => .error e
  | .ok base =>
    .ok { toNSResourceRecord := base,
          preference_ := 256 * (mem rdata_cbegin).val + (mem (rdata_cbegin + 1)).val }

/-- A base-class constructor that accepts a record exactly when the length it is handed
is 65534, and then yields a record with the empty name. -/
def ns_accepting_65534 : NSConstructor :=
  fun _ domain _ _ ttl rdlength _ =>
    if rdlength = 65534 then
      .ok { owner := domain, rrtype := .NS, ttl := ttl, rdlength := rdlength,
            domain := { labels := [] } }
    else .error .RdataLengthMismatch

/-- The `n` bytes of memory starting at `p`. -/
def readBytes (mem : Memory) (p n : Nat) : List Byte :=
  (List.range n).map (fun i => mem (p + i))

/-- Modelled from the spec: the loop of `DomainName::Parse` (its source is not part of the
development). It reads from `p` inside the buffer that ends at `bufEnd`; `base` is the
start of the message, `total` the decoded length so far and `hops` the number of
compression pointers followed. It yields the labels from `p` on and the number of bytes
they take in the stream being read: a pointer takes two bytes and ends the name there.
A length byte of zero ends the name; one of 192 or more starts a pointer, whose target
must lie in the buffer and before the pointer itself, with at most as many hops as the
buffer has bytes; labels have at most 63 bytes and the decoded name at most 255. -/
def DomainName.parseAux (mem : Memory) (bufEnd base : Nat) :
    Nat → Nat → Nat → Nat → Except DecodeError (List (List Byte) × Nat)
  | 0, _, _, _ => .error .CompressionLoop
  | fuel + 1, p, total, hops =>
    if bufEnd ≤ p then .error .BufferTooShort
    else if (mem p).val = 0 then
      if 255 < total + 1 then .error .NameTooLong else .ok ([], 1)
    else if 192 ≤ (mem p).val then
      if bufEnd ≤ p + 1 then .error .BufferTooShort
      else if bufEnd ≤ base + (((mem p).val - 192) * 256 + (mem (p + 1)).val) then
        .error .CompressionPointerOutOfRange
      else if p ≤ base + (((mem p).val - 192) * 256 + (mem (p + 1)).val) then
        .error .CompressionLoop
      else if bufEnd - base ≤ hops then .error .CompressionLoop
      else
        match DomainName.parseAux mem bufEnd base fuel
            (base + (((mem p).val - 192) * 256 + (mem (p + 1)).val)) total (hops + 1) with
        | .error e => .error e
        | .ok (ls, _) => .ok (ls, 2)
    else if 64 ≤ (mem p).val then .error .LabelTooLong
    else if bufEnd < p + 1 + (mem p).val then .error .BufferTooShort
    else if 255 < total + ((mem p).val + 1) then .error .NameTooLong
    else
      match DomainName.parseAux mem bufEnd base fuel (p + 1 + (mem p).val)
          (total + ((mem p).val + 1)) hops with
      | .error e => .error e
      | .ok (ls, c) => .ok (readBytes mem (p + 1) (mem p).val :: ls, (mem p).val + 1 + c)

/-- Modelled from the spec: `DomainName::Parse(buffer, start_offset, message_base)` (its
source is not part of the development): the name at `start` and the number of bytes it
takes in the stream read from `start`. The recursion budget covers every label (at most 127)
and every pointer hop up to the ceiling; a larger budget gives the same result. -/
def DomainName.parse (mem : Memory) (start bufEnd base : Nat) :
    Except DecodeError (DomainName × Nat) :=
  match DomainName.parseAux mem bufEnd base (256 + (bufEnd - base)) start 0 0 with
  | .error e => .error e
  | .ok (ls, c) => .ok ({ labels := ls }, c)

/-- Modelled from the spec: the constructor of `NSResourceRecord` (its source is not part
of the development): the rdata is a single domain name, with compression pointers
resolved against `cache`, the start of the message; the bytes it takes must be exactly
`rdlength`, otherwise decoding fails with `RdataLengthMismatch`. -/
def NSResourceRecord.construct : NSConstructor :=
  fun mem domain rdata_cbegin rdata_cend ttl rdlength cache =>
    match DomainName.parse mem rdata_cbegin rdata_cend cache with
    | .error e => .error e
    | .ok (name, consumed) =>
      if consumed ≠ rdlength then .error .RdataLengthMismatch
      else .ok { owner := domain, rrtype := .NS, ttl := ttl, rdlength := rdlength,
                 domain := name }

/-- A memory image holding, from address 0, the message
`03 'f' 'o' 'o' 00 | 00 0a 02 'm' 'x' c0 00 | 01 02 01 'a' 00`:
the name `foo`, the rdata of a mail-exchange record with preference 10 and the compressed
name `mx.foo`, and the rdata of one with preference 258 and the plain name `a`. -/
def sampleMemory : Memory :=
  fun a => ([3, 102, 111, 111, 0, 0, 10, 2, 109, 120, 192, 0, 1, 2, 1, 97, 0] : List Byte).getD a 0

/-! ## Splitting a line into words -/

theorem allSpace_nil : AllSpace [] := fun _ hc => nomatch hc

theorem noSpace_nil : NoSpace [] := fun _ hc => nomatch hc

theorem allSpace_cons (c : Char) (w : List Char) (hc : isspace c = true) (hw : AllSpace w) :
    AllSpace (c :: w) := by
  intro d hd
  rcases List.mem_cons.mp hd with rfl | hd
  · exact hc
  · exact hw d hd

theorem noSpace_cons (c : Char) (t : List Char) (hc : isspace c = false) (ht : NoSpace t) :
    NoSpace (c :: t) := by
  intro d hd
  rcases List.mem_cons.mp hd with rfl | hd
  · exact hc
  · exact ht d hd

theorem tokensAux_skip (w l : List Char) (hw : AllSpace w) :
    tokensAux (w ++ l) [] = tokensAux l [] := by
  induction w with
  | nil => rfl
  | cons c w ih =>
    have hc : isspace c = true := hw c (List.mem_cons_self _ _)
    have hw2 : AllSpace w := fun d hd => hw d (List.mem_cons_of_mem _ hd)
    simp [tokensAux, hc, ih hw2]

theorem tokensAux_take (t l cur : List Char) (ht : NoSpace t) :
    tokensAux (t ++ l) cur = tokensAux l (t.reverse ++ cur) := by
  induction t generalizing cur with
  | nil => rfl
  | cons c t ih =>
    have hc : isspace c = false := ht c (List.mem_cons_self _ _)
    have ht2 : NoSpace t := fun d hd => ht d (List.mem_cons_of_mem _ hd)
    simp [tokensAux, hc, ih _ ht2]

theorem tokensAux_ne_nil (l cur : List Char) (hcur : cur ≠ []) : tokensAux l cur ≠ [] := by
  induction l generalizing cur with
  | nil => simp [tokensAux, hcur]
  | cons c cs ih =>
    unfold tokensAux
    by_cases hc : isspace c = true
    · simp [hc, hcur]
    · simp [hc]; exact ih _ (by simp)

theorem tokensAux_nil_allSpace (l : List Char) (h : tokensAux l [] = []) : AllSpace l := by
  induction l with
  | nil => intro c hc; cases hc
  | cons c cs ih =>
    unfold tokensAux at h
    by_cases hc : isspace c = true
    · simp [hc] at h
      intro d hd
      rcases List.mem_cons.mp hd with rfl | hd
      · exact hc
      · exact ih h d hd
    · simp [hc] at h
      exact absurd h (tokensAux_ne_nil cs [c] (by simp))

theorem tokensAux_cons_cur (l cur : List Char) (hcur : cur ≠ []) (s : String)
    (rest : List String) (h : tokensAux l cur = s :: rest) :
    ∃ t r, l = t ++ r ∧ NoSpace t ∧ s = String.mk (cur.reverse ++ t) ∧ Rest r rest := by
  induction l generalizing cur with
  | nil =>
    simp [tokensAux, hcur] at h
    exact ⟨[], [], rfl, noSpace_nil, by simp [h.1], Or.inl ⟨rfl, h.2⟩⟩
  | cons c cs ih =>
    unfold tokensAux at h
    by_cases hc : isspace c = true
    · simp [hc, hcur] at h
      exact ⟨[], c :: cs, rfl, noSpace_nil, by simp [h.1],
        Or.inr ⟨c, cs, rfl, hc, h.2⟩⟩
    · simp [hc] at h
      obtain ⟨t, r, hl, ht, hs, hr⟩ := ih (c :: cur) (by simp) h
      refine ⟨c :: t, r, by simp [hl], ?_, by simp [hs], hr⟩
      intro d hd
      rcases List.mem_cons.mp hd with rfl | hd
      · simpa using hc
      · exact ht d hd

theorem tokensAux_cons (l : List Char) (s : String) (rest : List String)
    (h : tokensAux l [] = s :: rest) :
    ∃ w t r, l = w ++ t ++ r ∧ AllSpace w ∧ t ≠ [] ∧ NoSpace t ∧ s = String.mk t ∧
      Rest r rest := by
  induction l with
  | nil => simp [tokensAux] at h
  | cons c cs ih =>
    unfold tokensAux at h
    by_cases hc : isspace c = true
    · simp [hc] at h
      obtain ⟨w, t, r, hl, hw, htne, ht, hs, hr⟩ := ih h
      refine ⟨c :: w, t, r, by simp [hl], ?_, htne, ht, hs, hr⟩
      intro d hd
      rcases List.mem_cons.mp hd with rfl | hd
      · exact hc
      · exact hw d hd
    · simp [hc] at h
      obtain ⟨t, r, hl, ht, hs, hr⟩ := tokensAux_cons_cur cs [c] (by simp) s rest h
      refine ⟨[], c :: t, r, by simp [hl], allSpace_nil, by simp, ?_,
        by simpa using hs, hr⟩
      intro d hd
      rcases List.mem_cons.mp hd with rfl | hd
      · simpa using hc
      · exact ht d hd

theorem tokensAux_of_splits (line t0 t1 : List Char) (h : SplitsInTwo line t0 t1) :
    tokensAux line [] = [String.mk t0, String.mk t1] := by
  obtain ⟨w0, w1, w2, hl, h0, h1, h1ne, h2, ht0ne, ht0, ht1ne, ht1⟩ := h
  subst hl
  cases w1 with
  | nil => exact absurd rfl h1ne
  | cons c w1 =>
    have hc : isspace c = true := h1 c (List.mem_cons_self _ _)
    have hw1 : AllSpace w1 := fun d hd => h1 d (List.mem_cons_of_mem _ hd)
    have e0 : t0.reverse ≠ [] := by simpa using ht0ne
    have e1 : t1.reverse ≠ [] := by simpa using ht1ne
    have hend : tokensAux w2 t1.reverse = [String.mk t1] := by
      cases w2 with
      | nil => simp [tokensAux, ht1ne]
      | cons d w2 =>
        have hd : isspace d = true := h2 d (List.mem_cons_self _ _)
        have hw2 : AllSpace w2 := fun x hx => h2 x (List.mem_cons_of_mem _ hx)
        have := tokensAux_skip w2 [] hw2
        simp [tokensAux] at this
        simp [tokensAux, hd, ht1ne, this]
    simp only [List.append_assoc, List.cons_append]
    rw [tokensAux_skip _ _ h0, tokensAux_take _ _ _ ht0]
    simp only [List.append_nil]
    unfold tokensAux
    simp only [hc, if_true, List.isEmpty_eq_true, e0, if_false]
    rw [tokensAux_skip _ _ hw1, tokensAux_take _ _ _ ht1]
    simp [hend]

theorem splits_of_tokensAux (line : List Char) (s0 s1 : String)
    (h : tokensAux line [] = [s0, s1]) : SplitsInTwo line s0.data s1.data := by
  obtain ⟨w0, t0, r, hl, hw0, ht0ne, ht0, hs0, hr⟩ := tokensAux_cons line s0 [s1] h
  rcases hr with ⟨_, hr⟩ | ⟨c, r2, hr, hc, hrest⟩
  · cases hr
  obtain ⟨w, t1, r3, hl2, hw, ht1ne, ht1, hs1, hr3⟩ := tokensAux_cons r2 s1 [] hrest
  have hw2 : AllSpace r3 := by
    rcases hr3 with ⟨h3, _⟩ | ⟨d, r4, h3, hd, h4⟩
    · subst h3; intro x hx; cases hx
    · subst h3
      intro x hx
      rcases List.mem_cons.mp hx with rfl | hx
      · exact hd
      · exact tokensAux_nil_allSpace r4 h4 x hx
  refine ⟨w0, c :: w, r3, ?_, hw0, ?_, by simp, hw2, ?_, ?_, ?_, ?_⟩
  · subst hs0 hs1; simp [hl, hr, hl2]
  · intro x hx
    rcases List.mem_cons.mp hx with rfl | hx
    · exact hc
    · exact hw x hx
  · subst hs0; exact ht0ne
  · subst hs0; exact ht0
  · subst hs1; exact ht1ne
  · subst hs1; exact ht1


/-! ## Facts about the name decoder -/

theorem parseAux_fuel (mem : Memory) (bufEnd base : Nat) :
    ∀ (f1 f2 p total hops : Nat), total ≤ 255 → hops ≤ bufEnd - base →
      (255 - total) + (bufEnd - base - hops) < f1 →
      (255 - total) + (bufEnd - base - hops) < f2 →
      DomainName.parseAux mem bufEnd base f1 p total hops =
        DomainName.parseAux mem bufEnd base f2 p total hops := by
  intro f1
  induction f1 with
  | zero => intro f2 p total hops _ _ h1 _; omega
  | succ f1 ih =>
    intro f2 p total hops ht hh h1 h2
    cases f2 with
    | zero => omega
    | succ f2 =>
      simp only [DomainName.parseAux]
      split_ifs with c1 c2 c3 c4 c5 c6 c7 c8 c9 c10 c11
      all_goals try rfl
      · rw [ih f2 _ total (hops + 1) ht (by omega) (by omega) (by omega)]
      · rw [ih f2 _ (total + ((mem p).val + 1)) hops (by omega) hh (by omega) (by omega)]

/-- Any recursion budget above the default one gives the same parse. -/
theorem parse_fuel_irrelevant (mem : Memory) (start bufEnd base extra : Nat) :
    DomainName.parseAux mem bufEnd base (256 + (bufEnd - base) + extra) start 0 0 =
      DomainName.parseAux mem bufEnd base (256 + (bufEnd - base)) start 0 0 :=
  parseAux_fuel mem bufEnd base _ _ start 0 0 (by omega) (by omega) (by omega) (by omega)

theorem parseAux_bound (mem : Memory) (bufEnd base fuel : Nat) :
    ∀ (p total hops : Nat) (ls : List (List Byte)) (c : Nat),
      DomainName.parseAux mem bufEnd base fuel p total hops = .ok (ls, c) →
      total + c ≤ 256 ∧ total ≤ 254 := by
  induction fuel with
  | zero => intro p total hops ls c h; simp [DomainName.parseAux] at h
  | succ fuel ih =>
    intro p total hops ls c h
    simp only [DomainName.parseAux] at h
    split_ifs at h with h1 h2 h3 h4 h5 h6 h7 h8 h9 h10 h11
    · simp only [Except.ok.injEq, Prod.mk.injEq] at h
      omega
    · split at h
      · cases h
      · rename_i ls2 c2 hsub
        simp only [Except.ok.injEq, Prod.mk.injEq] at h
        have := ih _ _ _ _ _ hsub
        omega
    · split at h
      · cases h
      · rename_i ls2 c2 hsub
        simp only [Except.ok.injEq, Prod.mk.injEq] at h
        have := ih _ _ _ _ _ hsub
        omega

theorem parse_consumed_le (mem : Memory) (start bufEnd base : Nat) (name : DomainName)
    (c : Nat) (h : DomainName.parse mem start bufEnd base = .ok (name, c)) : c ≤ 256 := by
  unfold DomainName.parse at h
  split at h
  · cases h
  · rename_i ls c2 hsub
    simp only [Except.ok.injEq, Prod.mk.injEq] at h
    have := parseAux_bound mem bufEnd base _ _ _ _ _ _ hsub
    omega

theorem rdlength_minus_2u_of_ge (rdlength : Nat) (h2 : 2 ≤ rdlength) (hlen : rdlength < 65536) :
    rdlength_minus_2u rdlength = rdlength - 2 := by
  unfold rdlength_minus_2u; omega

theorem rdlength_minus_2u_of_lt (rdlength : Nat) (h2 : rdlength < 2) :
    rdlength_minus_2u rdlength = rdlength + 65534 := by
  unfold rdlength_minus_2u; omega

theorem ntohs_memcpy16 (host : Endian) (mem : Memory) (p : Nat) :
    ntohs host (memcpy16 host mem p) = 256 * (mem p).val + (mem (p + 1)).val := by
  have h0 := (mem p).isLt
  have h1 := (mem (p + 1)).isLt
  cases host with
  | little =>
    have e1 : ((mem p).val + 256 * (mem (p + 1)).val) % 256 = (mem p).val := by omega
    have e2 : ((mem p).val + 256 * (mem (p + 1)).val) / 256 = (mem (p + 1)).val := by omega
    simp only [ntohs, memcpy16, e1, e2]
    omega
  | big =>
    simp only [ntohs, memcpy16]
    omega


/-! ## The mail-exchange constructor -/

/-- Claim C1: for an rdata slice of at least two bytes whose suffix the name-server
constructor accepts, the `MXResourceRecord` constructor succeeds and sets `preference_` to
`256 * rdata[0] + rdata[1]`, on a little-endian and on a big-endian host alike and for any
name-server constructor, so however the following name is encoded. -/
theorem mx_preference_is_big_endian (host : Endian) (ns : NSConstructor) (mem : Memory)
    (domain : DomainName) (rdata_cbegin rdata_cend ttl rdlength cache : Nat)
    (_hslice : rdata_cbegin + 2 ≤ rdata_cend)
    (hns : ∃ base, ns mem domain (rdata_cbegin + 2) rdata_cend ttl
      (rdlength_minus_2u rdlength) cache = .ok base) :
    ∃ mx, MXResourceRecord.construct host ns mem domain rdata_cbegin rdata_cend ttl rdlength
        cache = .ok mx ∧
      mx.preference_ = 256 * (mem rdata_cbegin).val + (mem (rdata_cbegin + 1)).val := by
  obtain ⟨base, hbase⟩ := hns
  refine ⟨{ toNSResourceRecord := base,
            preference_ := ntohs host (memcpy16 host mem rdata_cbegin) }, ?_, ?_⟩
  · simp only [MXResourceRecord.construct, hbase]
  · exact ntohs_memcpy16 host mem rdata_cbegin

/-- Claim C1, at the record with preference 10 and the compressed name `mx.foo` of
`sampleMemory`, decoded on a little-endian host. -/
theorem mx_preference_is_big_endian_witness :
    ∃ mx, MXResourceRecord.construct .little NSResourceRecord.construct sampleMemory
        { labels := [] } 5 12 300 7 0 = .ok mx ∧
      mx.preference_ = 256 * (sampleMemory 5).val + (sampleMemory (5 + 1)).val :=
  mx_preference_is_big_endian .little NSResourceRecord.construct sampleMemory { labels := [] }
    5 12 300 7 0 (by decide) ⟨_, rfl⟩

/-- Claim C2, as amended: for every declared `rdlength` from 2 to 65535 the
`MXResourceRecord` constructor is the decoder of the specification: it hands the
name-server constructor the same memory, `domain`, `ttl`, `rdata_cend` and `cache`, the
start `rdata_cbegin + 2` and the length `rdlength - 2`; the decode succeeds exactly when
that call succeeds, and its name-server part is the record that call yields. -/
theorem mx_delegates_to_ns (host : Endian) (ns : NSConstructor) (mem : Memory)
    (domain : DomainName) (rdata_cbegin rdata_cend ttl rdlength cache : Nat)
    (h2 : 2 ≤ rdlength) (hlen : rdlength < 65536) :
    MXResourceRecord.construct host ns mem domain rdata_cbegin rdata_cend ttl rdlength cache =
      MXResourceRecord.decode_spec ns mem domain rdata_cbegin rdata_cend ttl rdlength cache ∧
    (MXResourceRecord.construct host ns mem domain rdata_cbegin rdata_cend ttl rdlength
        cache).map (fun mx => mx.toNSResourceRecord) =
      ns mem domain (rdata_cbegin + 2) rdata_cend ttl (rdlength - 2) cache ∧
    ((∃ mx, MXResourceRecord.construct host ns mem domain rdata_cbegin rdata_cend ttl
        rdlength cache = .ok mx) ↔
      ∃ base, ns mem domain (rdata_cbegin + 2) rdata_cend ttl (rdlength - 2) cache =
        .ok base) ∧
    (∀ mx, MXResourceRecord.construct host ns mem domain rdata_cbegin rdata_cend ttl
        rdlength cache = .ok mx →
      ns mem domain (rdata_cbegin + 2) rdata_cend ttl (rdlength - 2) cache =
        .ok mx.toNSResourceRecord) := by
  have hsub : rdlength_minus_2u rdlength = rdlength - 2 :=
    rdlength_minus_2u_of_ge rdlength h2 hlen
  refine ⟨?_, ?_, ?_, ?_⟩
  · unfold MXResourceRecord.construct MXResourceRecord.decode_spec
    rw [hsub]
    cases ns mem domain (rdata_cbegin + 2) rdata_cend ttl (rdlength - 2) cache
    · rfl
    · simp only [ntohs_memcpy16]
  · unfold MXResourceRecord.construct
    rw [hsub]
    cases ns mem domain (rdata_cbegin + 2) rdata_cend ttl (rdlength - 2) cache <;> rfl
  · unfold MXResourceRecord.construct
    rw [hsub]
    cases ns mem domain (rdata_cbegin + 2) rdata_cend ttl (rdlength - 2) cache <;> simp
  · intro mx
    unfold MXResourceRecord.construct
    rw [hsub]
    cases ns mem domain (rdata_cbegin + 2) rdata_cend ttl (rdlength - 2) cache
    · intro h; cases h
    · intro h
      simp only [Except.ok.injEq] at h
      subst h
      rfl

/-- Claim C2 as amended, at the record of `sampleMemory` with declared length 7: the
name-server constructor of the specification is handed the start 7 and the length 5, and
the name-server part of the decoded record is what that call yields. -/
theorem mx_delegates_to_ns_witness :
    2 ≤ 7 ∧ 7 < 65536 ∧
    (MXResourceRecord.construct .little NSResourceRecord.construct sampleMemory
        { labels := [] } 5 12 300 7 0).map (fun mx => mx.toNSResourceRecord) =
      NSResourceRecord.construct sampleMemory { labels := [] } (5 + 2) 12 300 (7 - 2) 0 ∧
    NSResourceRecord.construct sampleMemory { labels := [] } (5 + 2) 12 300 (7 - 2) 0 =
      .ok { owner := { labels := [] }, rrtype := .NS, ttl := 300, rdlength := 5,
            domain := { labels := [[109, 120], [102, 111, 111]] } } :=
  ⟨by decide, by decide,
    (mx_delegates_to_ns .little NSResourceRecord.construct sampleMemory { labels := [] }
      5 12 300 7 0 (by decide) (by decide)).2.1, rfl⟩

/-- Claim C2 as worded fails at `rdlength = 0`: the constructor hands the base class the
length 65534 (the 16-bit value of `rdlength-2u`), not `rdlength - 2`. With a base
constructor that accepts only the length 65534 the mail-exchange decode succeeds, while
the name-server decode of the same suffix with `rdlength` reduced by 2 fails, and so does
the decoder of the specification. -/
theorem mx_delegates_to_ns_fails_at_zero :
    rdlength_minus_2u 0 = 65534 ∧
    ((rdlength_minus_2u 0 : Nat) : Int) ≠ (0 : Int) - 2 ∧
    (∃ mx, MXResourceRecord.construct .little ns_accepting_65534 sampleMemory
        { labels := [] } 5 12 300 0 0 = .ok mx) ∧
    ns_accepting_65534 sampleMemory { labels := [] } (5 + 2) 12 300 (0 - 2) 0 =
      .error .RdataLengthMismatch ∧
    MXResourceRecord.decode_spec ns_accepting_65534 sampleMemory { labels := [] } 5 12 300 0 0 =
      .error .RdataLengthMismatch ∧
    ¬ ((∃ mx, MXResourceRecord.construct .little ns_accepting_65534 sampleMemory
          { labels := [] } 5 12 300 0 0 = .ok mx) ↔
        ∃ base, ns_accepting_65534 sampleMemory { labels := [] } (5 + 2) 12 300 (0 - 2) 0 =
          .ok base) := by
  have hok : ∃ mx, MXResourceRecord.construct .little ns_accepting_65534 sampleMemory
      { labels := [] } 5 12 300 0 0 = .ok mx := ⟨_, rfl⟩
  refine ⟨by decide, by decide, hok, rfl, rfl, ?_⟩
  intro h
  obtain ⟨base, hb⟩ := h.1 hok
  cases hb

/-- Claim C3: with the name-server constructor of the specification, for every declared
`rdlength` from 0 to 65535, a successful decode of a mail-exchange record means that the
two preference bytes plus the bytes the embedded name takes are exactly `rdlength`; and
whenever the embedded name parses but takes a different number of bytes, the decode fails
with `RdataLengthMismatch`. For `rdlength` 0 and 1 the base constructor is handed 65534
and 65535, more than any name takes, so the decode fails. -/
theorem mx_consumes_exactly_rdlength (host : Endian) (mem : Memory) (domain : DomainName)
    (rdata_cbegin rdata_cend ttl rdlength cache : Nat) (hlen : rdlength < 65536) :
    (∀ mx, MXResourceRecord.construct host NSResourceRecord.construct mem domain rdata_cbegin
        rdata_cend ttl rdlength cache = .ok mx →
      ∃ consumed, DomainName.parse mem (rdata_cbegin + 2) rdata_cend cache =
          .ok (mx.domain, consumed) ∧ 2 + consumed = rdlength) ∧
    (∀ name consumed, DomainName.parse mem (rdata_cbegin + 2) rdata_cend cache =
        .ok (name, consumed) → 2 + consumed ≠ rdlength →
      MXResourceRecord.construct host NSResourceRecord.construct mem domain rdata_cbegin
        rdata_cend ttl rdlength cache = .error .RdataLengthMismatch) := by
  constructor
  · intro mx h
    unfold MXResourceRecord.construct NSResourceRecord.construct at h
    cases hp : DomainName.parse mem (rdata_cbegin + 2) rdata_cend cache with
    | error e => simp [hp] at h
    | ok r =>
      obtain ⟨name, consumed⟩ := r
      have hle := parse_consumed_le mem _ _ _ name consumed hp
      simp only [hp] at h
      by_cases hc : consumed = rdlength_minus_2u rdlength
      · simp only [hc, ne_eq, not_true_eq_false, if_false, Except.ok.injEq] at h
        subst h
        refine ⟨consumed, rfl, ?_⟩
        by_cases h2 : 2 ≤ rdlength
        · rw [rdlength_minus_2u_of_ge rdlength h2 hlen] at hc; omega
        · rw [rdlength_minus_2u_of_lt rdlength (by omega)] at hc; omega
      · simp [hc] at h
  · intro name consumed hp hne
    have hle := parse_consumed_le mem _ _ _ name consumed hp
    have hc : consumed ≠ rdlength_minus_2u rdlength := by
      by_cases h2 : 2 ≤ rdlength
      · rw [rdlength_minus_2u_of_ge rdlength h2 hlen]; omega
      · rw [rdlength_minus_2u_of_lt rdlength (by omega)]; omega
    unfold MXResourceRecord.construct NSResourceRecord.construct
    simp [hp, hc]

/-- Claim C3, at the record with preference 258 and the name `a` of `sampleMemory`: the
decode succeeds, and the declared length 5 is the two preference bytes plus the three
bytes the name takes. -/
theorem mx_consumes_exactly_rdlength_witness :
    5 < 65536 ∧
    ∃ consumed, DomainName.parse sampleMemory (12 + 2) 17 0 =
      .ok ({ labels := [[97]] }, consumed) ∧ 2 + consumed = 5 :=
  ⟨by decide,
    (mx_consumes_exactly_rdlength .big sampleMemory { labels := [] } 12 17 300 5 0
      (by decide)).1
      { owner := { labels := [] }, rrtype := .NS, ttl := 300, rdlength := 3,
        domain := { labels := [[97]] }, preference_ := 258 } rfl⟩

/-! ## The command-line client -/

/-- Claim C4: `parse_line` returns `true` exactly when the line consists of two
whitespace-separated words of which the first is `A`, `MX` or `NS`; it then stores the
record type named by the first word and the second word as the name. The two malformed
lines of the usage notes are rejected. -/
theorem parse_line_accepts_iff (line : String) (user_request : UserRequest) :
    ((parse_line line user_request).1 = true ↔
      ∃ t0 t1, SplitsInTwo line.data t0 t1 ∧
        (String.mk t0 = "A" ∨ String.mk t0 = "MX" ∨ String.mk t0 = "NS")) ∧
    (∀ t0 t1, SplitsInTwo line.data t0 t1 → (parse_line line user_request).1 = true →
      (parse_line line user_request).2.rr_type.to_string = String.mk t0 ∧
      (parse_line line user_request).2.name = String.mk t1) ∧
    (parse_line "this line is broken" user_request).1 = false ∧
    (parse_line "SUPER        broken.com" user_request).1 = false := by
  have key : ∀ t0 t1, tokens line = [String.mk t0, String.mk t1] →
      ((parse_line line user_request).1 = true ↔
        (String.mk t0 = "A" ∨ String.mk t0 = "MX" ∨ String.mk t0 = "NS")) ∧
      ((parse_line line user_request).1 = true →
        (parse_line line user_request).2.rr_type.to_string = String.mk t0 ∧
        (parse_line line user_request).2.name = String.mk t1) := by
    intro t0 t1 htok
    unfold parse_line
    rw [htok]
    simp only [to_rr_type]
    by_cases hA : String.mk t0 = "A"
    · simp [hA, RRType.to_string]
    · by_cases hMX : String.mk t0 = "MX"
      · simp [hMX, RRType.to_string]
      · by_cases hNS : String.mk t0 = "NS"
        · simp [hNS, RRType.to_string]
        · simp [hA, hMX, hNS]
  refine ⟨⟨?_, ?_⟩, ?_, rfl, rfl⟩
  · intro h
    have hshape : ∃ s0 s1, tokens line = [s0, s1] := by
      unfold parse_line at h
      split at h
      · exact ⟨_, _, by assumption⟩
      · simp at h
    obtain ⟨s0, s1, htok⟩ := hshape
    have hsplit := splits_of_tokensAux line.data s0 s1 htok
    exact ⟨s0.data, s1.data, hsplit, ((key s0.data s1.data htok).1).1 h⟩
  · rintro ⟨t0, t1, hsplit, hname⟩
    exact ((key t0 t1 (tokensAux_of_splits _ _ _ hsplit)).1).2 hname
  · intro t0 t1 hsplit h
    exact (key t0 t1 (tokensAux_of_splits _ _ _ hsplit)).2 h

/-- Claim C5: called with an empty server list, as `main` does, `process_args` returns
`true` exactly when there are two or three arguments, `inet_pton` does not return 0 on
the last one and, with three arguments, the second is `-t` or `-u`; on every return the
transport is UDP. -/
theorem process_args_accepts_iff (inet_pton : String → Int) (argv : List String) (g : Globals)
    (hg : g.g_dns_servers = []) :
    ((process_args inet_pton argv g).1 = true ↔
      (argv.length = 2 ∨ argv.length = 3) ∧
      (∃ last, argv.getLast? = some last ∧ inet_pton last ≠ 0) ∧
      (argv.length = 3 → argv.get? 1 = some "-t" ∨ argv.get? 1 = some "-u")) ∧
    (process_args inet_pton argv g).2.1.g_transport_type = .UDP := by
  constructor
  · match argv with
    | [] => simp [process_args]
    | [_] => simp [process_args]
    | [_, b] =>
      by_cases hb : inet_pton b = 0 <;> simp [process_args, hg, hb]
    | [_, b, c] =>
      by_cases hc : inet_pton c = 0
      · simp [process_args, hg, hc]
      · by_cases ht : b = "-t"
        · simp [process_args, hg, hc, ht]
        · by_cases hu : b = "-u"
          · simp [process_args, hg, hc, hu]
          · simp [process_args, hg, hc, ht, hu]
    | _ :: _ :: _ :: _ :: _ =>
      simp [process_args]
  · unfold process_args
    simp only
    split_ifs <;> rfl

/-- Claim C5, at the command line `dnsclient -t 127.0.0.53` and the initial globals. -/
theorem process_args_accepts_iff_witness :
    (process_args sample_inet_pton ["dnsclient", "-t", "127.0.0.53"] initialGlobals).1 = true ∧
    (process_args sample_inet_pton ["dnsclient", "-t", "127.0.0.53"]
      initialGlobals).2.1.g_transport_type = .UDP :=
  ⟨((process_args_accepts_iff sample_inet_pton ["dnsclient", "-t", "127.0.0.53"]
      initialGlobals rfl).1).2
      ⟨by decide, ⟨"127.0.0.53", by decide, by decide⟩, by decide⟩,
    (process_args_accepts_iff sample_inet_pton ["dnsclient", "-t", "127.0.0.53"]
      initialGlobals rfl).2⟩

/-- Claim C4, at the line `MX redhat.com`: it is accepted, as type `MX` and name
`redhat.com`. -/
theorem parse_line_accepts_iff_witness :
    (parse_line "MX redhat.com" { rr_type := .A, name := "" }).1 = true ∧
    (parse_line "MX redhat.com" { rr_type := .A, name := "" }).2.rr_type.to_string = "MX" ∧
    (parse_line "MX redhat.com" { rr_type := .A, name := "" }).2.name = "redhat.com" :=
  have hsplit : SplitsInTwo "MX redhat.com".data "MX".data "redhat.com".data :=
    ⟨[], [' '], [], rfl, by unfold AllSpace; decide, by unfold AllSpace; decide, by decide,
      by unfold AllSpace; decide, by decide, by unfold NoSpace; decide, by decide,
      by unfold NoSpace; decide⟩
  have hacc := ((parse_line_accepts_iff "MX redhat.com" { rr_type := .A, name := "" }).1).2
    ⟨"MX".data, "redhat.com".data, hsplit, Or.inr (Or.inl rfl)⟩
  ⟨hacc, (parse_line_accepts_iff "MX redhat.com" { rr_type := .A, name := "" }).2.1
    "MX".data "redhat.com".data hsplit hacc⟩

/-- Claim C6 fails on this input: the first line is well formed but its query is answered
with rcode 3, so the iteration is left by `continue` before `line_n++`; the malformed
line that follows is the second line read, at zero-based position 1, yet the warning
printed for it carries the number 0. -/
theorem main_malformed_line_number_after_error_answer :
    main sample_inet_pton ["dnsclient", "127.0.0.53"]
        [("A example.com", QueryEnv.answering { rcode := 3, answers := [] }),
         ("this line is broken", QueryEnv.answering { rcode := 0, answers := [] })] =
      ([.banner, .infoDefaultTransport .UDP,
        .question .UDP "127.0.0.53" .A "example.com",
        .errRcode "Name Error",
        .warnMalformed 0 "this line is broken"], .success) ∧
    Event.render (.warnMalformed 0 "this line is broken") =
      "WARN: ignoring malformed line 0: \x27this line is broken\x27\n" := by
  constructor <;> decide

/-- Claim C7: what `operator<<` writes for a resource record is decided by its class. An
address record gives the name of its type (`A`, `NS` or `MX`), its ttl in decimal and the
dotted address; a name-server record gives the name of its type, its ttl and the display
string of its domain; a mail-exchange record gives what the name-server branch gives for
its type, ttl and domain, whatever its preference; a record of any other class makes the
operator throw. The records of the usage notes print as shown there. -/
theorem operator_out_by_variant :
    (∀ r : AResourceRecord, (ResourceRecord.a r).operator_out =
      .ok ((match r.rrtype with | .A => "A" | .NS => "NS" | .MX => "MX") ++ " " ++
        toString r.ttl ++ " " ++
        (toString r.address.b0.val ++ "." ++ toString r.address.b1.val ++ "." ++
          toString r.address.b2.val ++ "." ++ toString r.address.b3.val))) ∧
    (∀ r : NSResourceRecord, (ResourceRecord.ns r).operator_out =
      .ok ((match r.rrtype with | .A => "A" | .NS => "NS" | .MX => "MX") ++ " " ++
        toString r.ttl ++ " " ++ r.domain.toString)) ∧
    (∀ r : MXResourceRecord, (ResourceRecord.mx r).operator_out =
      (ResourceRecord.ns r.toNSResourceRecord).operator_out) ∧
    (∀ (r : MXResourceRecord) (p : Nat),
      (ResourceRecord.mx { r with preference_ := p }).operator_out =
        .ok ((match r.rrtype with | .A => "A" | .NS => "NS" | .MX => "MX") ++ " " ++
          toString r.ttl ++ " " ++ r.domain.toString)) ∧
    (∀ r : ResourceRecordBase, (ResourceRecord.other r).operator_out =
      .error "Unknown record type") ∧
    (ResourceRecord.a
        { owner := { labels := [] }, rrtype := RRType.A, ttl := 300, rdlength := 4,
          address := { b0 := 209, b1 := 132, b2 := 183, b3 := 81 } }).operator_out =
      .ok "A 300 209.132.183.81" ∧
    (ResourceRecord.ns
        { owner := { labels := [] }, rrtype := RRType.NS, ttl := 5, rdlength := 12,
          domain := { labels := [[110, 115, 49], [103, 111, 111, 103, 108, 101],
            [99, 111, 109]] } }).operator_out =
      .ok "NS 5 ns1.google.com" ∧
    (ResourceRecord.mx
        { owner := { labels := [] }, rrtype := RRType.NS, ttl := 5, rdlength := 12,
          domain := { labels := [[109, 120, 50], [114, 101, 100, 104, 97, 116],
            [99, 111, 109]] },
          preference_ := 10 }).operator_out =
      .ok "NS 5 mx2.redhat.com" ∧
    (ResourceRecord.mx
        { owner := { labels := [] }, rrtype := RRType.MX, ttl := 5, rdlength := 12,
          domain := { labels := [[109, 120, 50], [114, 101, 100, 104, 97, 116],
            [99, 111, 109]] },
          preference_ := 10 }).operator_out =
      .ok "MX 5 mx2.redhat.com" := by
  refine ⟨?_, ?_, ?_, ?_, ?_, rfl, rfl, rfl, rfl⟩
  · intro r
    obtain ⟨⟨owner, rrtype, ttl, rdlength⟩, address⟩ := r
    cases rrtype <;> rfl
  · intro r
    obtain ⟨⟨owner, rrtype, ttl, rdlength⟩, domain⟩ := r
    cases rrtype <;> rfl
  · intro r
    rfl
  · intro r p
    obtain ⟨⟨⟨owner, rrtype, ttl, rdlength⟩, domain⟩, pref⟩ := r
    cases rrtype <;> rfl
  · intro r
    rfl

/-- Claim C8: `rcode_to_string` maps 0 to 5 to the six texts and every larger rcode to
the empty string; and an iteration of the loop of `main` prints an answer record only if
the query returned a message whose rcode is 0, a message with another rcode producing
the error line with the text for its rcode and no answer line. -/
theorem rcode_to_string_table_and_success :
    rcode_to_string 0 = "No error" ∧ rcode_to_string 1 = "Format error" ∧
    rcode_to_string 2 = "Server failure" ∧ rcode_to_string 3 = "Name Error" ∧
    rcode_to_string 4 = "Not Implemented" ∧ rcode_to_string 5 = "Refused" ∧
    (∀ rcode, 5 < rcode → rcode_to_string rcode = "") ∧
    (∀ (g : Globals) (line : String) (env : QueryEnv) (line_n : Nat) (server text : String),
      Event.answer server text ∈ (main_body g line env line_n).1 →
      ∃ m, env.makeMessage = .ok m ∧ exec_query env Message.empty = .returned true m [] ∧
        m.rcode = 0) ∧
    (∀ (g : Globals) (line : String) (env : QueryEnv) (line_n : Nat) (m : Message),
      (parse_line line { rr_type := .A, name := "" }).1 = true → env.questionOk = true →
      exec_query env Message.empty = .returned true m [] → m.rcode ≠ 0 →
      main_body g line env line_n =
        ([.question g.g_transport_type (g.g_dns_servers.headD "")
            (parse_line line { rr_type := .A, name := "" }).2.rr_type
            (parse_line line { rr_type := .A, name := "" }).2.name,
          .errRcode (rcode_to_string m.rcode)], some line_n)) := by
  refine ⟨rfl, rfl, rfl, rfl, rfl, rfl, ?_, ?_, ?_⟩
  · intro rcode h
    unfold rcode_to_string
    simp [show rcode ≠ 0 by omega, show rcode ≠ 1 by omega, show rcode ≠ 2 by omega,
      show rcode ≠ 3 by omega, show rcode ≠ 4 by omega, show rcode ≠ 5 by omega]
  · intro g line env line_n server text h
    unfold main_body at h
    simp only at h
    split_ifs at h with h1 h2
    · simp at h
    · simp at h
    · split at h
      · rename_i out hex
        unfold exec_query at hex
        split_ifs at hex
        all_goals first
          | (cases hex; simp at h)
          | (split at hex <;> try split at hex <;> try split at hex) <;> cases hex
      · rename_i ok ans out hex
        have hout : Event.answer server text ∉ out ∧
            (ok = true → env.makeMessage = .ok ans ∧ out = []) := by
          unfold exec_query at hex
          split_ifs at hex
          split at hex
          · cases hex; simp
          · split at hex
            · cases hex; simp
            · split at hex
              · cases hex; simp
              · rename_i m hm
                cases hex
                exact ⟨by simp, fun _ => ⟨hm, rfl⟩⟩
        split_ifs at h with h3 h4 h5
        · simp [hout.1] at h
        · simp [hout.1] at h
        · have hok : ok = true := by simpa using h3
          obtain ⟨hm, ho⟩ := hout.2 hok
          subst ho hok
          exact ⟨ans, hm, hex, by simpa using h4⟩
        · have hok : ok = true := by simpa using h3
          obtain ⟨hm, ho⟩ := hout.2 hok
          subst ho hok
          exact ⟨ans, hm, hex, by simpa using h4⟩
  · intro g line env line_n m hline hq hex hr
    unfold main_body
    simp [hline, hq, hex, hr]

end ro1617
